import Mathlib

/-!
Verification of the `node_practice` posts API: a shallow embedding of the
final Parser / Resource / PostsController classes and the restify route
handlers, over a JSON-like value model with lodash-style deep merge.
-/

set_option autoImplicit false

namespace NodePractice

/-- JSON-like JavaScript values as they flow through the API: the store
client's responses, the parsed posts, and the request parameter objects.
Objects are ordered association lists, matching JS property-insertion
order; `vUndefined` is JavaScript `undefined` (a missing property reads as
`vUndefined`). -/
inductive Value where
  | vUndefined : Value
  | vNull : Value
  | vBool : Bool → Value
  | vNum : Int → Value
  | vStr : String → Value
  | vArr : List Value → Value
  | vObj : List (String × Value) → Value

namespace Value

/-- JavaScript property access `v[k]`: a missing property (or a property
of a non-object) reads as `undefined`. -/
def get : Value → String → Value
  | .vObj fields, k => (fields.lookup k).getD .vUndefined
  | _, _ => .vUndefined

/-- JavaScript truthiness of a value, as used by `if (res.found)` and
`if (res._id)` in the source. -/
def truthy : Value → Bool
  | .vUndefined => false
  | .vNull => false
  | .vBool b => b
  | .vNum n => n != 0
  | .vStr s => s != ""
  | .vArr _ => true
  | .vObj _ => true

/-- Whether the value is JavaScript `undefined`. -/
def isUndefined : Value → Bool
  | .vUndefined => true
  | _ => false

end Value

mutual

/-- lodash `_.merge(dst, src)` on values: when both sides are plain
objects the fields are merged recursively, otherwise the source value
replaces the destination. -/
def mergeV : Value → Value → Value
  | .vObj od, .vObj os => .vObj (mergeO od os)
  | _, s => s
termination_by _ s => (sizeOf s, 0)

/-- lodash `_.merge` on the field lists of two objects: source entries are
folded into the destination left to right. -/
def mergeO (od : List (String × Value)) : List (String × Value) → List (String × Value)
  | [] => od
  | (k, sv) :: rest => mergeO (mergeEntry od k sv) rest
termination_by src => (sizeOf src, 0)

/-- Merge one source entry `(k, sv)` into a destination field list: an
existing entry for `k` is updated in place (keeping JS property order);
an `undefined` source value is skipped when a destination entry exists
(lodash semantics); a fresh key is appended at the end. -/
def mergeEntry : List (String × Value) → String → Value → List (String × Value)
  | [], k, sv => [(k, sv)]
  | (k', dv) :: tl, k, sv =>
    if k' = k then
      if sv.isUndefined then (k', dv) :: tl else (k', mergeV dv sv) :: tl
    else (k', dv) :: mergeEntry tl k sv
termination_by tl _ sv => (sizeOf sv, 1 + sizeOf tl)

end

namespace Parser

/-- The per-hit translation inside `parseSearchResult`:
`_.merge(hit._source, { id: hit._id })`. -/
def postOfHit (hit : Value) : Value :=
  mergeV (hit.get "_source") (.vObj [("id", hit.get "_id")])

/-- `Parser#parseSearchResult(res)`: `_.map(res.hits.hits, (hit) =>
_.merge(hit._source, { id: hit._id }))`.  Modelled on responses whose
`hits.hits` is an array (`none` marks the unmodelled non-array case,
where the JS would map over a non-collection). -/
def parseSearchResult (res : Value) : Option Value :=
  match (res.get "hits").get "hits" with
  | .vArr hits => some (.vArr (hits.map postOfHit))
  | _ => none

/-- `Parser#parseCreateResult(attrs)`: `(res) => _.merge({ id: res._id },
attrs)`. -/
def parseCreateResult (attrs : Value) (res : Value) : Value :=
  mergeV (.vObj [("id", res.get "_id")]) attrs

/-- `Parser#parseGetResult(res)`: resolves
`_.merge({ id: res._id }, res._source)` when `res.found` is truthy and
otherwise rejects with `res._id`.  A promise is an `Except`: `.error` is
the rejection value, `.ok` the resolution value. -/
def parseGetResult (res : Value) : Except Value Value :=
  if (res.get "found").truthy then
    .ok (mergeV (.vObj [("id", res.get "_id")]) (res.get "_source"))
  else
    .error (res.get "_id")

/-- `Parser#parseUpdateResult(id, attrs)`: resolves
`_.merge({ id: res._id }, attrs)` when `res._id` is truthy and otherwise
rejects with the requested `id`. -/
def parseUpdateResult (id attrs res : Value) : Except Value Value :=
  if (res.get "_id").truthy then
    .ok (mergeV (.vObj [("id", res.get "_id")]) attrs)
  else
    .error id

/-- `Parser#parseDeleteResult(id)`: resolves the bare `id` when
`res.found` is truthy and otherwise rejects with the same `id`. -/
def parseDeleteResult (id res : Value) : Except Value Value :=
  if (res.get "found").truthy then .ok id else .error id

end Parser

/-- The external search client consumed by `Resource`
(`search`/`index`/`get`/`update`/`delete`): each verb is a function from
the params object to the (resolved) response value. -/
structure Client where
  search : Value → Value
  index : Value → Value
  get : Value → Value
  update : Value → Value
  delete : Value → Value

/-- `app/lib/resource.js`: a client together with the fixed
`baseParams = { index: indexName, type: type }` object stored by the
constructor. -/
structure Resource where
  client : Client
  baseParams : Value

/-- The `Resource` constructor: stores the client and
`{ index: indexName, type: type }`. -/
def Resource.make (client : Client) (indexName ty : String) : Resource :=
  ⟨client, .vObj [("index", .vStr indexName), ("type", .vStr ty)]⟩

namespace Resource

/-- `search()` — `this.client.search(this.baseParams)`. -/
def search (r : Resource) : Value :=
  r.client.search r.baseParams

/-- `create(attrs)` — `this.client.index(_.merge({ body: attrs },
this.baseParams))`. -/
def create (r : Resource) (attrs : Value) : Value :=
  r.client.index (mergeV (.vObj [("body", attrs)]) r.baseParams)

/-- `get(id)` — `this.client.get(_.merge({ id: id }, this.baseParams))`. -/
def get (r : Resource) (id : Value) : Value :=
  r.client.get (mergeV (.vObj [("id", id)]) r.baseParams)

/-- `update(id, attrs)` — `this.client.update(_.merge({ id: id,
doc: attrs }, this.baseParams))`. -/
def update (r : Resource) (id attrs : Value) : Value :=
  r.client.update (mergeV (.vObj [("id", id), ("doc", attrs)]) r.baseParams)

/-- `delete(id)` — `this.client.delete(_.merge({ id: id },
this.baseParams))`. -/
def delete (r : Resource) (id : Value) : Value :=
  r.client.delete (mergeV (.vObj [("id", id)]) r.baseParams)

end Resource

namespace PostsController

/-- Final `PostsController#index`:
`this.resource.search().then(this.parser.parseSearchResult)`. -/
def index (r : Resource) : Option Value :=
  Parser.parseSearchResult r.search

/-- Final `PostsController#create`:
`this.resource.create(attrs).then(this.parser.parseCreateResult(attrs))`. -/
def create (r : Resource) (attrs : Value) : Value :=
  Parser.parseCreateResult attrs (r.create attrs)

/-- Final `PostsController#show`:
`this.resource.get(id).then(this.parser.parseGetResult)`. -/
def «show» (r : Resource) (id : Value) : Except Value Value :=
  Parser.parseGetResult (r.get id)

/-- Final `PostsController#update`:
`this.resource.update(id, attrs).then(this.parser.parseUpdateResult(id, attrs))`. -/
def update (r : Resource) (id attrs : Value) : Except Value Value :=
  Parser.parseUpdateResult id attrs (r.update id attrs)

/-- Final `PostsController#destroy`:
`this.resource.delete(id).then(this.parser.parseDeleteResult(id))`. -/
def destroy (r : Resource) (id : Value) : Except Value Value :=
  Parser.parseDeleteResult id (r.delete id)

/-- The promise body of the pre-refactoring `show` (the intermediate
`PostsController` in `app/controllers/posts.js` with inline parsing):
resolves `_.merge({ id: res._id }, res._source)` when `res.found` is
truthy and otherwise rejects with the requested `id`. -/
def showPreBody (id res : Value) : Except Value Value :=
  if (res.get "found").truthy then
    .ok (mergeV (.vObj [("id", res.get "_id")]) (res.get "_source"))
  else
    .error id

/-- Pre-refactoring `PostsController#show`: `this.resource.get(id)`
piped through the inline promise logic. -/
def showPre (r : Resource) (id : Value) : Except Value Value :=
  showPreBody id (r.get id)

end PostsController

/-- An HTTP reply as produced by `res.send(status)` /
`res.send(status, body)` in the route handlers. -/
structure HttpReply where
  status : Nat
  body : Option Value

namespace Server

/-- Final `GET /posts/:id` handler: `posts.show(...).then((result) =>
res.send(200, result)).catch(() => res.send(404))`, as a function of the
controller promise's outcome. -/
def showRoute (outcome : Except Value Value) : HttpReply :=
  match outcome with
  | .ok v => ⟨200, some v⟩
  | .error _ => ⟨404, none⟩

/-- Final `POST /posts/:id` handler: `posts.update(...).then((result) =>
res.send(200, result)).catch(() => res.send(404))`. -/
def updateRoute (outcome : Except Value Value) : HttpReply :=
  match outcome with
  | .ok v => ⟨200, some v⟩
  | .error _ => ⟨404, none⟩

/-- Final `DELETE /posts/:id` handler: `posts.destroy(...).then((result) =>
res.send(200, { id: req.params.id })).catch(() => res.send(404))`; the
body on fulfillment is built from the path id, not from `result`. -/
def destroyRoute (pathId : Value) (outcome : Except Value Value) : HttpReply :=
  match outcome with
  | .ok _ => ⟨200, some (.vObj [("id", pathId)])⟩
  | .error _ => ⟨404, none⟩

/-- Final `POST /posts` handler: `posts.create(...).then((result) =>
res.send(201, result))` (no rejection handling on this route). -/
def createRoute (result : Value) : HttpReply :=
  ⟨201, some result⟩

end Server

/-! ## Helper lemmas about the lodash merge -/

/-- Merging a source entry for key `k` leaves the lookup of any other
key unchanged. -/
theorem lookup_mergeEntry_ne (od : List (String × Value)) (k k' : String) (sv : Value)
    (h : k' ≠ k) : (mergeEntry od k sv).lookup k' = od.lookup k' := by
  have hb : (k' == k) = false := beq_eq_false_iff_ne.mpr h
  induction od with
  | nil => simp [mergeEntry, List.lookup, hb]
  | cons hd tl ih =>
    obtain ⟨kh, vh⟩ := hd
    by_cases hk : kh = k
    · subst hk
      cases hu : sv.isUndefined <;> simp [mergeEntry, hu, List.lookup, hb]
    · simp only [mergeEntry, if_neg hk]
      by_cases hk' : k' = kh
      · subst hk'; simp [List.lookup]
      · have hb3 : (k' == kh) = false := beq_eq_false_iff_ne.mpr hk'
        simp [List.lookup, hb3, ih]

/-- Merging a whole source object whose keys avoid `k` leaves the lookup
of `k` unchanged. -/
theorem lookup_mergeO_not_mem (od src : List (String × Value)) (k : String)
    (h : k ∉ src.map Prod.fst) : (mergeO od src).lookup k = od.lookup k := by
  induction src generalizing od with
  | nil => simp [mergeO]
  | cons hd rest ih =>
    obtain ⟨ks, vs⟩ := hd
    simp only [List.map_cons, List.mem_cons] at h
    push_neg at h
    rw [mergeO, ih _ h.2, lookup_mergeEntry_ne _ _ _ _ h.1]

/-! ## The claims -/

/-- C7: for every client, indexName and type, `Resource.search()` calls
`client.search` with exactly `{index, type}`; `create(attrs)` calls
`client.index` with `{index, type, body: attrs}`; `get(id)` calls
`client.get` with `{index, type, id}`; `update(id, attrs)` calls
`client.update` with `{index, type, id, doc: attrs}`; `delete(id)` calls
`client.delete` with `{index, type, id}`; and each returns the client's
result unmodified (each equation below exhibits the call as exactly the
client's value at the stated params object; keys are listed in the JS
property order produced by `_.merge`, which is the same object). -/
theorem claim_C7 (c : Client) (iN ty : String) (attrs idv : Value) :
    Resource.search (Resource.make c iN ty) = c.search (.vObj [("index", .vStr iN), ("type", .vStr ty)])
    ∧ Resource.create (Resource.make c iN ty) attrs
        = c.index (.vObj [("body", attrs), ("index", .vStr iN), ("type", .vStr ty)])
    ∧ Resource.get (Resource.make c iN ty) idv
        = c.get (.vObj [("id", idv), ("index", .vStr iN), ("type", .vStr ty)])
    ∧ Resource.update (Resource.make c iN ty) idv attrs
        = c.update (.vObj [("id", idv), ("doc", attrs), ("index", .vStr iN), ("type", .vStr ty)])
    ∧ Resource.delete (Resource.make c iN ty) idv
        = c.delete (.vObj [("id", idv), ("index", .vStr iN), ("type", .vStr ty)]) := by
  refine ⟨rfl, ?_, ?_, ?_, ?_⟩ <;>
    simp [Resource.create, Resource.get, Resource.update, Resource.delete, Resource.make,
      mergeV, mergeO, mergeEntry, Value.isUndefined]

/-- C1: for every store search response whose `hits.hits` is a list, the
controller's `index()` resolves to a list (always a sequence, even for
zero or one hit) of the same length and order, whose `i`-th element is
the `i`-th hit's `_source` merged with `{ id: hit._id }`
(`Parser.postOfHit`). -/
theorem claim_C1 (r : Resource) (hits : List Value)
    (h : ((Resource.search r).get "hits").get "hits" = .vArr hits) :
    PostsController.index r = some (.vArr (hits.map Parser.postOfHit))
    ∧ (hits.map Parser.postOfHit).length = hits.length
    ∧ ∀ (i : Nat) (hi : i < hits.length),
        (hits.map Parser.postOfHit).get ⟨i, by simpa using hi⟩
          = Parser.postOfHit (hits.get ⟨i, hi⟩) := by
  refine ⟨?_, by simp, ?_⟩
  · simp [PostsController.index, Parser.parseSearchResult, h]
  · intro i hi
    simp

/-- C1 witness: the spec's example — the store returns
`{hits:{hits:[{_id:"A1", _source:{author:"Smith"}}]}}` and `index()`
resolves to the one-element list `[{author:"Smith", id:"A1"}]` (key
order is JS insertion order; as a JSON object this is
`{id:"A1", author:"Smith"}`). -/
theorem claim_C1_witness :
    PostsController.index
      (Resource.make
        { search := fun _ => .vObj [("hits", .vObj [("hits", .vArr
            [.vObj [("_id", .vStr "A1"), ("_source", .vObj [("author", .vStr "Smith")])]])])],
          index := fun _ => .vUndefined, get := fun _ => .vUndefined,
          update := fun _ => .vUndefined, delete := fun _ => .vUndefined }
        "node_api" "posts")
      = some (.vArr [.vObj [("author", .vStr "Smith"), ("id", .vStr "A1")]]) := by
  have h := (claim_C1
    (Resource.make
      { search := fun _ => .vObj [("hits", .vObj [("hits", .vArr
          [.vObj [("_id", .vStr "A1"), ("_source", .vObj [("author", .vStr "Smith")])]])])],
        index := fun _ => .vUndefined, get := fun _ => .vUndefined,
        update := fun _ => .vUndefined, delete := fun _ => .vUndefined }
      "node_api" "posts")
    [.vObj [("_id", .vStr "A1"), ("_source", .vObj [("author", .vStr "Smith")])]]
    (by simp [Resource.search, Resource.make, Value.get, List.lookup])).1
  rw [h]
  simp [Parser.postOfHit, Value.get, List.lookup, mergeV, mergeO, mergeEntry, Value.isUndefined]

/-- C2 counterexample: the claim says `show(id)` rejects with the
requested id, but `parseGetResult` rejects with the response's `_id`:
for `show("X")` against the get response `{found: false, _id: "Y"}`, the
rejection value is `"Y"`, not the requested `"X"`. -/
theorem claim_C2_counterexample :
    PostsController.«show»
      (Resource.make
        { search := fun _ => .vUndefined, index := fun _ => .vUndefined,
          get := fun _ => .vObj [("found", .vBool false), ("_id", .vStr "Y")],
          update := fun _ => .vUndefined, delete := fun _ => .vUndefined }
        "node_api" "posts")
      (.vStr "X")
      = .error (.vStr "Y")
    ∧ Value.vStr "Y" ≠ Value.vStr "X" := by
  constructor
  · simp [PostsController.«show», Parser.parseGetResult, Resource.get, Resource.make,
      Value.get, Value.truthy, List.lookup]
  · intro hEq
    injection hEq with hs
    exact absurd hs (by decide)

/-- C2 amended: for every id and store get response, `show(id)` resolves
with `res._source` merged under `{ id: res._id }` when `res.found` is
truthy, and otherwise rejects with the response's `_id` field (which
equals the requested id whenever the store echoes the requested id back,
as the real store does) — not with the requested id itself. -/
theorem claim_C2_amended (r : Resource) (idv : Value) :
    PostsController.«show» r idv =
      if ((Resource.get r idv).get "found").truthy then
        .ok (mergeV (.vObj [("id", (Resource.get r idv).get "_id")])
          ((Resource.get r idv).get "_source"))
      else
        .error ((Resource.get r idv).get "_id") := rfl

/-- C3: for every attribute object and store index response, the
controller's `create(attrs)` resolves to `attrs` merged over
`{ id: res._id }`; the result depends only on the response's `_id`
(nothing stored is re-read); and on the spec's example —
`create({author:"Rogers"})` against a store returning `{_id:"A2"}` —
it resolves to `{id:"A2", author:"Rogers"}`. -/
theorem claim_C3 (r : Resource) (attrs : Value) :
    PostsController.create r attrs
      = mergeV (.vObj [("id", (Resource.create r attrs).get "_id")]) attrs
    ∧ (∀ res : Value, Parser.parseCreateResult attrs res
        = Parser.parseCreateResult attrs (.vObj [("_id", res.get "_id")]))
    ∧ PostsController.create
        (Resource.make
          { search := fun _ => .vUndefined,
            index := fun _ => .vObj [("_id", .vStr "A2")],
            get := fun _ => .vUndefined, update := fun _ => .vUndefined,
            delete := fun _ => .vUndefined }
          "node_api" "posts")
        (.vObj [("author", .vStr "Rogers")])
      = .vObj [("id", .vStr "A2"), ("author", .vStr "Rogers")] := by
  refine ⟨rfl, ?_, ?_⟩
  · intro res
    simp [Parser.parseCreateResult, Value.get, List.lookup]
  · simp [PostsController.create, Parser.parseCreateResult, Resource.create, Resource.make,
      Value.get, List.lookup, mergeV, mergeO, mergeEntry, Value.isUndefined]

/-- C4: for every id, attrs and store update response, the controller's
`update(id, attrs)` resolves with `attrs` merged over `{ id: res._id }`
exactly when the response has a truthy `_id`, and rejects with the
requested id otherwise; in particular `update("X", attrs)` against a
response lacking `_id` rejects with `"X"`. -/
theorem claim_C4 (r : Resource) (idv attrs : Value) :
    (PostsController.update r idv attrs =
      if ((Resource.update r idv attrs).get "_id").truthy then
        .ok (mergeV (.vObj [("id", (Resource.update r idv attrs).get "_id")]) attrs)
      else
        .error idv)
    ∧ PostsController.update
        (Resource.make
          { search := fun _ => .vUndefined, index := fun _ => .vUndefined,
            get := fun _ => .vUndefined,
            update := fun _ => .vObj [("_version", .vNum 2)],
            delete := fun _ => .vUndefined }
          "node_api" "posts")
        (.vStr "X") attrs
      = .error (.vStr "X") := by
  refine ⟨rfl, ?_⟩
  simp [PostsController.update, Parser.parseUpdateResult, Resource.update, Resource.make,
    Value.get, Value.truthy, List.lookup]

/-- C5: for every id and store delete response, the controller's
`destroy(id)` resolves with the bare requested id exactly when
`res.found` is truthy and rejects with that same id otherwise; the
`DELETE /posts/:id` route responds 200 with body `{ id: <path id> }` on
fulfillment and 404 on rejection. -/
theorem claim_C5 (r : Resource) (idv : Value) :
    (PostsController.destroy r idv =
      if ((Resource.delete r idv).get "found").truthy then .ok idv else .error idv)
    ∧ (∀ pathId v : Value,
        Server.destroyRoute pathId (.ok v) = ⟨200, some (.vObj [("id", pathId)])⟩)
    ∧ (∀ pathId e : Value, Server.destroyRoute pathId (.error e) = ⟨404, none⟩) :=
  ⟨rfl, fun _ _ => rfl, fun _ _ => rfl⟩

/-- C6 counterexample: the claim says that on fulfillment each of the
three routes sends its success status with the resolved value, but the
`DELETE /posts/:id` handler sends `{ id: req.params.id }` built from the
path, not the resolved value: for path id `"5"` and resolved value
`"5"`, the reply body is the object `{id:"5"}`, which differs from the
resolved value `"5"`. -/
theorem claim_C6_counterexample :
    Server.destroyRoute (.vStr "5") (.ok (.vStr "5"))
      = ⟨200, some (.vObj [("id", .vStr "5")])⟩
    ∧ (Server.destroyRoute (.vStr "5") (.ok (.vStr "5"))).body ≠ some (.vStr "5") := by
  refine ⟨rfl, ?_⟩
  intro h
  simp [Server.destroyRoute] at h

/-- C6 amended: for the show, update and destroy routes, whenever the
controller promise rejects the server responds 404 with an empty body,
identically for any two rejection values (the rejection reason is
discarded and never influences the client-visible response); whenever it
fulfills, the show and update routes send 200 with the resolved value,
while the destroy route sends 200 with `{ id: <path id> }` built from
the path, ignoring the resolved value. -/
theorem claim_C6_amended (e1 e2 v pathId : Value) :
    Server.showRoute (.error e1) = Server.showRoute (.error e2)
    ∧ Server.showRoute (.error e1) = ⟨404, none⟩
    ∧ Server.updateRoute (.error e1) = Server.updateRoute (.error e2)
    ∧ Server.updateRoute (.error e1) = ⟨404, none⟩
    ∧ Server.destroyRoute pathId (.error e1) = Server.destroyRoute pathId (.error e2)
    ∧ Server.destroyRoute pathId (.error e1) = ⟨404, none⟩
    ∧ Server.showRoute (.ok v) = ⟨200, some v⟩
    ∧ Server.updateRoute (.ok v) = ⟨200, some v⟩
    ∧ Server.destroyRoute pathId (.ok v) = ⟨200, some (.vObj [("id", pathId)])⟩ :=
  ⟨rfl, rfl, rfl, rfl, rfl, rfl, rfl, rfl, rfl⟩

/-- C8 counterexample: the claim says the resolved Post's id is never
taken from the client-supplied attributes, but `_.merge({ id: res._id },
attrs)` lets an `id` key inside `attrs` overwrite the store-assigned
`_id`: `create({id:"EVIL", author:"x"})` against a store returning
`{_id:"A2"}` resolves to `{id:"EVIL", author:"x"}`, whose id is the
client's `"EVIL"`, not the store's `"A2"`. -/
theorem claim_C8_counterexample :
    PostsController.create
      (Resource.make
        { search := fun _ => .vUndefined,
          index := fun _ => .vObj [("_id", .vStr "A2")],
          get := fun _ => .vUndefined, update := fun _ => .vUndefined,
          delete := fun _ => .vUndefined }
        "node_api" "posts")
      (.vObj [("id", .vStr "EVIL"), ("author", .vStr "x")])
      = .vObj [("id", .vStr "EVIL"), ("author", .vStr "x")]
    ∧ Value.vStr "EVIL" ≠ Value.vStr "A2" := by
  constructor
  · simp [PostsController.create, Parser.parseCreateResult, Resource.create, Resource.make,
      Value.get, List.lookup, mergeV, mergeO, mergeEntry, Value.isUndefined]
  · intro hEq
    injection hEq with hs
    exact absurd hs (by decide)

/-- C8 amended: whenever the caller-supplied attribute object contains
no `id` key of its own, the Post resolved by `create(attrs)` (and by
`update(id, attrs)` on success, which resolves the same merge) has its
id equal to the store-assigned `_id`; when `attrs` does contain an `id`
key, the client-supplied value overwrites the store's. -/
theorem claim_C8_amended (fs : List (String × Value)) (res idv : Value)
    (h : "id" ∉ fs.map Prod.fst) :
    (Parser.parseCreateResult (.vObj fs) res).get "id" = res.get "_id"
    ∧ ((res.get "_id").truthy = true →
        Parser.parseUpdateResult idv (.vObj fs) res
          = .ok (Parser.parseCreateResult (.vObj fs) res)) := by
  constructor
  · show (mergeV (.vObj [("id", res.get "_id")]) (.vObj fs)).get "id" = res.get "_id"
    rw [mergeV, Value.get, lookup_mergeO_not_mem _ _ _ h]
    simp [List.lookup]
  · intro ht
    simp [Parser.parseUpdateResult, Parser.parseCreateResult, ht]

/-- C8 witness: with `attrs = {author:"Rogers"}` (no `id` key) and the
store response `{_id:"A2"}`, the created Post's id is the store's
`"A2"`, and a successful update resolves the same merge. -/
theorem claim_C8_witness :
    (Parser.parseCreateResult (.vObj [("author", .vStr "Rogers")])
        (.vObj [("_id", .vStr "A2")])).get "id"
      = (Value.vObj [("_id", .vStr "A2")]).get "_id"
    ∧ Parser.parseUpdateResult (.vStr "X") (.vObj [("author", .vStr "Rogers")])
        (.vObj [("_id", .vStr "A2")])
      = .ok (Parser.parseCreateResult (.vObj [("author", .vStr "Rogers")])
          (.vObj [("_id", .vStr "A2")])) := by
  have h := claim_C8_amended [("author", .vStr "Rogers")] (.vObj [("_id", .vStr "A2")])
    (.vStr "X") (by decide)
  exact ⟨h.1, h.2 (by decide)⟩

/-- C9: merge precedence differs between the read operations.  For a hit
whose `_source` carries its own `id` attribute, `parseSearchResult`'s
per-hit merge (`_.merge(hit._source, { id: hit._id })`) lets the
store-assigned `_id` overwrite the source's `id`, while `parseGetResult`
(`_.merge({ id: res._id }, res._source)`) lets the source's `id`
overwrite the store-assigned `_id`; so when the two differ, `index()`
and `show()` report different ids for the same stored document. -/
theorem claim_C9 (hid sid : String) (rest : List (String × Value))
    (hrest : "id" ∉ rest.map Prod.fst) (hne : sid ≠ hid) :
    (Parser.postOfHit (.vObj [("_id", .vStr hid),
        ("_source", .vObj (("id", .vStr sid) :: rest))])).get "id"
      = .vStr hid
    ∧ Parser.parseGetResult
        (.vObj [("found", .vBool true), ("_id", .vStr hid),
          ("_source", .vObj (("id", .vStr sid) :: rest))])
      = .ok (mergeV (.vObj [("id", .vStr hid)]) (.vObj (("id", .vStr sid) :: rest)))
    ∧ (mergeV (.vObj [("id", .vStr hid)]) (.vObj (("id", .vStr sid) :: rest))).get "id"
      = .vStr sid
    ∧ Value.vStr hid ≠ Value.vStr sid := by
  refine ⟨?_, ?_, ?_, ?_⟩
  · simp [Parser.postOfHit, Value.get, List.lookup, mergeV, mergeO, mergeEntry, Value.isUndefined]
  · simp [Parser.parseGetResult, Value.get, Value.truthy, List.lookup]
  · rw [mergeV, mergeO, mergeEntry]
    simp only [if_pos rfl, Value.isUndefined, Bool.false_eq_true, if_neg, mergeV]
    rw [Value.get, lookup_mergeO_not_mem _ _ _ hrest]
    simp [List.lookup]
  · intro hEq
    injection hEq with hs
    exact hne hs.symm

/-- C9 witness: for the hit `{_id:"A1", _source:{id:"S9",
author:"Smith"}}`, the search translation reports id `"A1"` while the
get translation reports id `"S9"`. -/
theorem claim_C9_witness :
    (Parser.postOfHit (.vObj [("_id", .vStr "A1"),
        ("_source", .vObj [("id", .vStr "S9"), ("author", .vStr "Smith")])])).get "id"
      = .vStr "A1"
    ∧ (mergeV (.vObj [("id", .vStr "A1")])
        (.vObj [("id", .vStr "S9"), ("author", .vStr "Smith")])).get "id"
      = .vStr "S9" := by
  have h := claim_C9 "A1" "S9" [("author", .vStr "Smith")] (by decide) (by decide)
  exact ⟨h.1, h.2.2.1⟩

/-- C10 counterexample: the pre-refactoring `show` and the Parser-based
`show` are not equivalent on rejection: for `show("P")` against the get
response `{found: false, _id: "Q"}`, the pre-refactoring version rejects
with the requested `"P"` while the Parser-based version rejects with the
response's `"Q"`. -/
theorem claim_C10_counterexample :
    PostsController.showPre
      (Resource.make
        { search := fun _ => .vUndefined, index := fun _ => .vUndefined,
          get := fun _ => .vObj [("found", .vBool false), ("_id", .vStr "Q")],
          update := fun _ => .vUndefined, delete := fun _ => .vUndefined }
        "node_api" "posts")
      (.vStr "P")
      = .error (.vStr "P")
    ∧ PostsController.«show»
        (Resource.make
          { search := fun _ => .vUndefined, index := fun _ => .vUndefined,
            get := fun _ => .vObj [("found", .vBool false), ("_id", .vStr "Q")],
            update := fun _ => .vUndefined, delete := fun _ => .vUndefined }
          "node_api" "posts")
        (.vStr "P")
      = .error (.vStr "Q")
    ∧ Value.vStr "P" ≠ Value.vStr "Q" := by
  refine ⟨?_, ?_, ?_⟩
  · simp [PostsController.showPre, PostsController.showPreBody, Resource.get, Resource.make,
      Value.get, Value.truthy, List.lookup]
  · simp [PostsController.«show», Parser.parseGetResult, Resource.get, Resource.make,
      Value.get, Value.truthy, List.lookup]
  · intro hEq
    injection hEq with hs
    exact absurd hs (by decide)

/-- C10 amended: the pre-refactoring `show` and the Parser-based `show`
resolve with the same value whenever `res.found` is truthy; on
rejection the former rejects with the requested id and the latter with
the response's `_id`, so the two outcomes coincide exactly when the
response is found or its `_id` equals the requested id (as with a store
that echoes the requested id). -/
theorem claim_C10_amended (r : Resource) (idv : Value) :
    (PostsController.showPre r idv =
      if ((Resource.get r idv).get "found").truthy then
        .ok (mergeV (.vObj [("id", (Resource.get r idv).get "_id")])
          ((Resource.get r idv).get "_source"))
      else
        .error idv)
    ∧ (PostsController.showPre r idv = PostsController.«show» r idv
        ↔ (((Resource.get r idv).get "found").truthy = true
            ∨ (Resource.get r idv).get "_id" = idv)) := by
  refine ⟨rfl, ?_⟩
  cases ht : ((Resource.get r idv).get "found").truthy with
  | true =>
    simp [PostsController.showPre, PostsController.showPreBody, PostsController.«show»,
      Parser.parseGetResult, ht]
  | false =>
    simp only [PostsController.showPre, PostsController.showPreBody, PostsController.«show»,
      Parser.parseGetResult, ht, Bool.false_eq_true, if_false, false_or]
    constructor
    · intro hEq
      injection hEq with hs
      exact hs.symm
    · intro hEq
      rw [hEq]

end NodePractice
